import Mathlib

/-!
Verification of the CNSS prealloc tiered memory-pool manager
(`cnss_prealloc.c`), shallowly embedded in Lean 4.

Modelling conventions:
* Addresses are `Nat`; `0` plays the role of the C `NULL` pointer, both as
  "allocation failed" and as the empty-slot marker in a tracking table.
* A tier (`struct cnss_pool`) keeps its `pool_ptrs` tracking table as
  `Option (List Nat)`: `none` is a `NULL` table pointer, `some t` a live
  table whose entries are the slot values (`0` = empty slot).
* `mempool_t *mp` is abstracted to a presence flag plus an allocation
  oracle `alloc : Nat → Option Nat` giving, per tier index, the address
  `mempool_alloc` would produce (`none` = allocation failure).
* `krealloc` success/failure during table growth is the oracle `krOk`.
* `cnss_pools` is a `List CnssPool`; the claims below all concern an
  initialized pool set, so the `!cnss_pools` early-outs are not modelled.
-/

set_option autoImplicit false

namespace CnssPrealloc

/-- `struct cnss_pool`: one tier of the pool set. -/
structure CnssPool where
  size : Nat
  min : Nat
  name : String
  /-- whether `mp` (the mempool handle) is non-NULL -/
  mp : Bool
  /-- the `pool_ptrs` tracking table; `none` models a NULL pointer -/
  poolPtrs : Option (List Nat)
  tableCapacity : Nat
  deriving DecidableEq, Repr

/-- `cnss_pool_alloc_threshold()`: `cnss_pools[0].size`. -/
def cnss_pool_alloc_threshold (pools : List CnssPool) : Nat :=
  (pools.headD ⟨0, 0, "", false, none, 0⟩).size

/-- The scan of `wcnss_find_pool_table_slot`: find the first empty
(`NULL`, i.e. `0`) slot and store `mem` there; `none` when the table has
no empty slot. -/
def fillFirstEmpty (mem : Nat) : List Nat → Option (List Nat)
  | [] => none
  | x :: xs =>
    if x = 0 then some (mem :: xs)
    else (fillFirstEmpty mem xs).map (fun ys => x :: ys)

/-- `wcnss_find_pool_table_slot(pool, mem)` for a tier `p` whose
`pool_ptrs` the caller has checked to be the live table `t`
(`wcnss_prealloc_get` guards `!cnss_pools[i].pool_ptrs` before calling).
Returns the updated tier and the C return value: `0` on success,
`-EPERM` (modelled `-1`) when the table was full and `krealloc` failed —
in which case the C code has already overwritten `pool_ptrs` with the
NULL result of `krealloc`. -/
def wcnss_find_pool_table_slot (krOk : Bool) (p : CnssPool) (t : List Nat)
    (mem : Nat) : CnssPool × Int :=
  match fillFirstEmpty mem t with
  | some t' => ({ p with poolPtrs := some t' }, 0)
  | none =>
    if krOk then
      ({ p with poolPtrs := some (t ++ [mem]),
                tableCapacity := p.tableCapacity + 1 }, 0)
    else
      ({ p with poolPtrs := none }, -1)

/-- The scan of `wcnss_free_pool_table_slot`: clear the first slot equal
to `mem`, returning the new table and the slot index. -/
def clearFirstMatch (mem : Nat) : List Nat → Option (List Nat × Nat)
  | [] => none
  | x :: xs =>
    if x = mem then some (0 :: xs, 0)
    else (clearFirstMatch mem xs).map (fun p => (x :: p.1, p.2 + 1))

/-- `wcnss_free_pool_table_slot(mempool, mem)` on the live table `t`:
returns the updated table and the C return value (the slot index on
success, `-EPERM` modelled `-1` when `mem` is not recorded; the table is
unchanged in that case). -/
def wcnss_free_pool_table_slot (t : List Nat) (mem : Nat) :
    List Nat × Int :=
  match clearFirstMatch mem t with
  | some (t', idx) => (t', (idx : Int))
  | none => (t, -1)

/-- The tier-engagement test of the `wcnss_prealloc_get` loop:
`cnss_pools[i].size >= size && cnss_pools[i].mp`. -/
def tierMatches (size : Nat) (p : CnssPool) : Bool :=
  size ≤ p.size && p.mp

/-- Result of `wcnss_prealloc_get`, instrumented: `pools` is the pool
set after the call, `mem` the returned address (`0` = NULL), `attempts`
the tier indices on which `mempool_alloc` was invoked, in order, and
`freedTo` records a rollback `mempool_free(mem, cnss_pools[i].mp)` as
`(i, mem)`. -/
structure GetResult where
  pools : List CnssPool
  mem : Nat
  attempts : List Nat
  freedTo : Option (Nat × Nat)
  deriving DecidableEq, Repr

/-- The `for` loop of `wcnss_prealloc_get`, processing the tiers from
index `i` on.  Returns the updated tiers, `mem`, `ret`, the list of
tiers whose `mempool_alloc` was invoked, and the index at which the loop
`break`-ed (if it did). -/
def getLoop (alloc : Nat → Option Nat) (krOk : Bool) (size : Nat) :
    Nat → List CnssPool →
    List CnssPool × Nat × Int × List Nat × Option Nat
  | _, [] => ([], 0, 0, [], none)
  | i, p :: rest =>
    if tierMatches size p then
      match p.poolPtrs with
      | none => (p :: rest, 0, 0, [], some i)
      | some t =>
        match alloc i with
        | some m =>
          let fr := wcnss_find_pool_table_slot krOk p t m
          (fr.1 :: rest, m, fr.2, [i], some i)
        | none =>
          let r := getLoop alloc krOk size (i + 1) rest
          (p :: r.1, r.2.1, r.2.2.1, i :: r.2.2.2.1, r.2.2.2.2)
    else
      let r := getLoop alloc krOk size (i + 1) rest
      (p :: r.1, r.2.1, r.2.2.1, r.2.2.2.1, r.2.2.2.2)

/-- `wcnss_prealloc_get(size)` on an initialized pool set. -/
def wcnss_prealloc_get (alloc : Nat → Option Nat) (krOk : Bool)
    (size : Nat) (pools : List CnssPool) : GetResult :=
  if cnss_pool_alloc_threshold pools ≤ size then
    let r := getLoop alloc krOk size 0 pools
    if r.2.2.1 < 0 then
      { pools := r.1, mem := 0, attempts := r.2.2.2.1,
        freedTo := some (r.2.2.2.2.getD 0, r.2.1) }
    else
      { pools := r.1, mem := r.2.1, attempts := r.2.2.2.1, freedTo := none }
  else
    { pools := pools, mem := 0, attempts := [], freedTo := none }

/-- The `for` loop of the table-scan `wcnss_prealloc_put`. -/
def putLoop (mem : Nat) : List CnssPool → List CnssPool × Bool
  | [] => ([], false)
  | p :: rest =>
    if p.mp then
      match p.poolPtrs with
      | none => (p :: rest, false)
      | some t =>
        let fr := wcnss_free_pool_table_slot t mem
        if 0 ≤ fr.2 then
          ({ p with poolPtrs := some fr.1 } :: rest, true)
        else
          let r := putLoop mem rest
          ({ p with poolPtrs := some fr.1 } :: r.1, r.2)
    else
      let r := putLoop mem rest
      (p :: r.1, r.2)

/-- `wcnss_prealloc_put(mem)` (table-scan mode) on an initialized pool
set: returns the updated pool set and the C return value (`1`/`0` as a
`Bool`). -/
def wcnss_prealloc_put (mem : Nat) (pools : List CnssPool) :
    List CnssPool × Bool :=
  if mem = 0 then (pools, false) else putLoop mem pools

/-- Whether address `m` is recorded in tier `p` (present in its live
tracking table). -/
def recordedIn (m : Nat) (p : CnssPool) : Bool :=
  match p.poolPtrs with
  | none => false
  | some t => t.contains m

/-- The inner loop of `wcnss_check_pool_lists` on one tier: read
`pool[idx]` for `fuel` successive indices starting at `idx`, emitting a
`(name, index)` report for each non-empty slot.  A read past the end of
the live table (the C code indexes by `table_capacity`, not by the
allocation's true length) is an out-of-bounds access, modelled `none`. -/
def scanSlots (nm : String) (t : List Nat) : Nat → Nat →
    Option (List (String × Nat))
  | _, 0 => some []
  | idx, fuel + 1 =>
    match t.get? idx with
    | none => none
    | some v =>
      (scanSlots nm t (idx + 1) fuel).map
        (fun l => if v ≠ 0 then (nm, idx) :: l else l)

/-- One iteration of the outer loop of `wcnss_check_pool_lists`: the C
code reads `pool[ptr_idx]` for `table_capacity` indices without checking
`pool_ptrs` for NULL, so a tier with a NULL table and a positive
capacity dereferences NULL — modelled `none`.  (With capacity `0` the
inner loop body never runs and nothing is read.) -/
def checkPool (p : CnssPool) : Option (List (String × Nat)) :=
  if p.tableCapacity = 0 then some []
  else
    match p.poolPtrs with
    | none => none
    | some t => scanSlots p.name t 0 p.tableCapacity

/-- The reports accumulated over all tiers by `wcnss_check_pool_lists`;
`none` as soon as some tier's scan faults. -/
def checkReports : List CnssPool → Option (List (String × Nat))
  | [] => some []
  | p :: rest =>
    match checkPool p with
    | none => none
    | some a =>
      match checkReports rest with
      | none => none
      | some b => some (a ++ b)

/-- `wcnss_check_pool_lists()`: the body contains no store, so the pool
set is passed through unchanged; the second component is the list of
`(tier name, slot index)` leak reports it prints. -/
def wcnss_check_pool_lists (pools : List CnssPool) :
    List CnssPool × Option (List (String × Nat)) :=
  (pools, checkReports pools)

/-- One row of a static configuration table (`size`, `min`, `name`). -/
structure PoolCfg where
  size : Nat
  min : Nat
  name : String
  deriving DecidableEq, Repr

/-- One iteration of the `cnss_pool_init` loop.  `cacheOk` / `mpOk`
model whether `kmem_cache_create_usercopy` / `mempool_create` succeed;
`km` models the result of the `kmalloc` of the tracking table (`none` =
failure; note the C code sets `table_capacity = min` *before* the
`kmalloc` and leaves it set when the `kmalloc` fails, and `kmalloc`
does not zero the new table, so `km`'s contents are arbitrary).  On a
cache or mempool failure the static row is left as initialized: NULL
handles, NULL table, capacity `0`. -/
def cnss_pool_init_one (cacheOk mpOk : Bool) (km : Option (List Nat))
    (cfg : PoolCfg) : CnssPool :=
  if cacheOk then
    if mpOk then
      ⟨cfg.size, cfg.min, cfg.name, true, km, cfg.min⟩
    else
      ⟨cfg.size, cfg.min, cfg.name, false, none, 0⟩
  else
    ⟨cfg.size, cfg.min, cfg.name, false, none, 0⟩

/-- The `cnss_pool_init` loop from index `i` on. -/
def cnss_pool_init_go (cacheOk mpOk : Nat → Bool)
    (km : Nat → Option (List Nat)) : Nat → List PoolCfg → List CnssPool
  | _, [] => []
  | i, c :: cs =>
    cnss_pool_init_one (cacheOk i) (mpOk i) (km i) c ::
      cnss_pool_init_go cacheOk mpOk km (i + 1) cs

/-- `cnss_pool_init()` over a configuration table, with per-index
oracles for the three fallible allocations. -/
def cnss_pool_init (cacheOk mpOk : Nat → Bool)
    (km : Nat → Option (List Nat)) (cfgs : List PoolCfg) :
    List CnssPool :=
  cnss_pool_init_go cacheOk mpOk km 0 cfgs

/-! ### Helper lemmas on the table-slot scans -/

theorem fillFirstEmpty_eq_none_iff (m : Nat) (t : List Nat) :
    fillFirstEmpty m t = none ↔ 0 ∉ t := by
  induction t with
  | nil => simp [fillFirstEmpty]
  | cons x xs ih =>
    by_cases hx : x = 0
    · simp [fillFirstEmpty, hx]
    · simp [fillFirstEmpty, hx, Option.map_eq_none, ih, Ne.symm hx]

theorem mem_of_fillFirstEmpty {m : Nat} {t t' : List Nat}
    (h : fillFirstEmpty m t = some t') : m ∈ t' := by
  induction t generalizing t' with
  | nil => simp [fillFirstEmpty] at h
  | cons x xs ih =>
    by_cases hx : x = 0
    · simp [fillFirstEmpty, hx] at h
      simp [← h]
    · simp only [fillFirstEmpty, hx, if_false, Option.map_eq_some'] at h
      obtain ⟨ys, hys, h2⟩ := h
      subst h2
      simp [ih hys]

theorem clearFirstMatch_eq_none_iff (m : Nat) (t : List Nat) :
    clearFirstMatch m t = none ↔ m ∉ t := by
  induction t with
  | nil => simp [clearFirstMatch]
  | cons x xs ih =>
    by_cases hx : x = m
    · simp [clearFirstMatch, hx]
    · simp [clearFirstMatch, hx, Option.map_eq_none, ih, Ne.symm hx]

theorem clearFirstMatch_count {m : Nat} (hm : m ≠ 0) :
    ∀ {t t' : List Nat} {i : Nat},
      clearFirstMatch m t = some (t', i) → t'.count m + 1 = t.count m := by
  intro t
  induction t with
  | nil => intro t' i h; simp [clearFirstMatch] at h
  | cons x xs ih =>
    intro t' i h
    by_cases hx : x = m
    · subst hx
      simp only [clearFirstMatch, if_true, eq_self_iff_true, Option.some.injEq,
        Prod.mk.injEq] at h
      rw [← h.1]
      simp [List.count_cons, hm, Ne.symm hm]
    · simp only [clearFirstMatch, hx, if_false, Option.map_eq_some'] at h
      obtain ⟨⟨ys, j⟩, hys, hmk⟩ := h
      rw [Prod.mk.injEq] at hmk
      obtain ⟨h1, -⟩ := hmk
      subst h1
      simp only [List.count_cons, hx]
      have := ih hys
      simp only [List.count_cons] at this ⊢
      omega

theorem clearFirstMatch_exists {m : Nat} {t : List Nat} (h : m ∈ t) :
    ∃ t' i, clearFirstMatch m t = some (t', i) := by
  rcases ho : clearFirstMatch m t with - | p
  · exact absurd ((clearFirstMatch_eq_none_iff m t).mp ho) (by simp [h])
  · exact ⟨p.1, p.2, rfl⟩

/-! ### Helper lemmas on the `wcnss_prealloc_get` loop -/

theorem getLoop_cons_nomatch {size : Nat} {p : CnssPool}
    (alloc : Nat → Option Nat) (krOk : Bool) (i : Nat) (rest : List CnssPool)
    (hm : tierMatches size p = false) :
    getLoop alloc krOk size i (p :: rest) =
      ((p :: (getLoop alloc krOk size (i + 1) rest).1),
        (getLoop alloc krOk size (i + 1) rest).2.1,
        (getLoop alloc krOk size (i + 1) rest).2.2.1,
        (getLoop alloc krOk size (i + 1) rest).2.2.2.1,
        (getLoop alloc krOk size (i + 1) rest).2.2.2.2) := by
  simp [getLoop, hm]

theorem getLoop_cons_nulltable {size : Nat} {p : CnssPool}
    (alloc : Nat → Option Nat) (krOk : Bool) (i : Nat) (rest : List CnssPool)
    (hm : tierMatches size p = true) (hpp : p.poolPtrs = none) :
    getLoop alloc krOk size i (p :: rest) = (p :: rest, 0, 0, [], some i) := by
  simp [getLoop, hm, hpp]

theorem getLoop_cons_allocfail {size : Nat} {p : CnssPool} {t : List Nat}
    (alloc : Nat → Option Nat) (krOk : Bool) (i : Nat) (rest : List CnssPool)
    (hm : tierMatches size p = true) (hpp : p.poolPtrs = some t)
    (hal : alloc i = none) :
    getLoop alloc krOk size i (p :: rest) =
      ((p :: (getLoop alloc krOk size (i + 1) rest).1),
        (getLoop alloc krOk size (i + 1) rest).2.1,
        (getLoop alloc krOk size (i + 1) rest).2.2.1,
        i :: (getLoop alloc krOk size (i + 1) rest).2.2.2.1,
        (getLoop alloc krOk size (i + 1) rest).2.2.2.2) := by
  simp [getLoop, hm, hpp, hal]

theorem getLoop_cons_alloc {size m : Nat} {p : CnssPool} {t : List Nat}
    (alloc : Nat → Option Nat) (krOk : Bool) (i : Nat) (rest : List CnssPool)
    (hm : tierMatches size p = true) (hpp : p.poolPtrs = some t)
    (hal : alloc i = some m) :
    getLoop alloc krOk size i (p :: rest) =
      ((wcnss_find_pool_table_slot krOk p t m).1 :: rest, m,
        (wcnss_find_pool_table_slot krOk p t m).2, [i], some i) := by
  simp [getLoop, hm, hpp, hal]

theorem getLoop_skip (alloc : Nat → Option Nat) (krOk : Bool) (size : Nat) :
    ∀ (pre rest : List CnssPool) (i : Nat),
      (∀ q ∈ pre, tierMatches size q = false) →
      getLoop alloc krOk size i (pre ++ rest) =
        (pre ++ (getLoop alloc krOk size (i + pre.length) rest).1,
          (getLoop alloc krOk size (i + pre.length) rest).2) := by
  intro pre
  induction pre with
  | nil => intro rest i _; simp
  | cons p ps ih =>
    intro rest i h
    have hp : tierMatches size p = false := h p (by simp)
    have ihr := ih rest (i + 1) (fun q hq => h q (by simp [hq]))
    have harith : i + (p :: ps).length = i + 1 + ps.length := by
      simp only [List.length_cons]; omega
    rw [List.cons_append, getLoop_cons_nomatch alloc krOk i (ps ++ rest) hp,
      harith, ihr]
    rfl

theorem getLoop_success_spec (alloc : Nat → Option Nat) (krOk : Bool)
    (size : Nat) :
    ∀ (ps : List CnssPool) (i : Nat),
      (getLoop alloc krOk size i ps).2.1 ≠ 0 →
      0 ≤ (getLoop alloc krOk size i ps).2.2.1 →
      ∃ pre p rest p' t t' j,
        ps = pre ++ p :: rest ∧
        (getLoop alloc krOk size i ps).1 = pre ++ p' :: rest ∧
        size ≤ p.size ∧ p.mp = true ∧
        alloc j = some (getLoop alloc krOk size i ps).2.1 ∧
        p.poolPtrs = some t ∧ p'.poolPtrs = some t' ∧
        (getLoop alloc krOk size i ps).2.1 ∈ t' ∧
        p'.size = p.size := by
  intro ps
  induction ps with
  | nil => intro i hmem _; simp [getLoop] at hmem
  | cons p rest ih =>
    intro i hmem hret
    cases hm : tierMatches size p with
    | false =>
      rw [getLoop_cons_nomatch alloc krOk i rest hm] at hmem hret ⊢
      obtain ⟨pre', p0, rest', p0', t, t', j, hdec, himg, h1, h2, h3, h4, h5, h6, h7⟩ :=
        ih (i + 1) hmem hret
      exact ⟨p :: pre', p0, rest', p0', t, t', j, by simp [hdec],
        by simp [himg], h1, h2, h3, h4, h5, h6, h7⟩
    | true =>
      have hmm : size ≤ p.size ∧ p.mp = true := by
        have := hm
        simp only [tierMatches, Bool.and_eq_true, decide_eq_true_eq] at this
        exact this
      cases hpp : p.poolPtrs with
      | none =>
        rw [getLoop_cons_nulltable alloc krOk i rest hm hpp] at hmem
        exact absurd rfl hmem
      | some t =>
        cases hal : alloc i with
        | none =>
          rw [getLoop_cons_allocfail alloc krOk i rest hm hpp hal] at hmem hret ⊢
          obtain ⟨pre', p0, rest', p0', t0, t', j, hdec, himg, h1, h2, h3, h4, h5, h6, h7⟩ :=
            ih (i + 1) hmem hret
          exact ⟨p :: pre', p0, rest', p0', t0, t', j, by simp [hdec],
            by simp [himg], h1, h2, h3, h4, h5, h6, h7⟩
        | some m =>
          rw [getLoop_cons_alloc alloc krOk i rest hm hpp hal] at hmem hret ⊢
          rcases hfill : fillFirstEmpty m t with - | t'
          · cases krOk with
            | false =>
              simp [wcnss_find_pool_table_slot, hfill] at hret
            | true =>
              refine ⟨[], p, rest,
                { p with poolPtrs := some (t ++ [m]),
                         tableCapacity := p.tableCapacity + 1 },
                t, t ++ [m], i, rfl, ?_, hmm.1, hmm.2, hal, hpp, ?_, ?_, ?_⟩ <;>
                simp [wcnss_find_pool_table_slot, hfill]
          · refine ⟨[], p, rest, { p with poolPtrs := some t' }, t, t', i,
              rfl, ?_, hmm.1, hmm.2, hal, hpp, ?_, ?_, ?_⟩ <;>
              simp [wcnss_find_pool_table_slot, hfill, mem_of_fillFirstEmpty hfill]

/-! ### Helper lemmas on the `wcnss_prealloc_put` loop -/

theorem putLoop_cons_nomp {m : Nat} {p : CnssPool} (rest : List CnssPool)
    (hmp : p.mp = false) :
    putLoop m (p :: rest) =
      (p :: (putLoop m rest).1, (putLoop m rest).2) := by
  simp [putLoop, hmp]

theorem putLoop_cons_nulltable {m : Nat} {p : CnssPool} (rest : List CnssPool)
    (hmp : p.mp = true) (hpp : p.poolPtrs = none) :
    putLoop m (p :: rest) = (p :: rest, false) := by
  simp [putLoop, hmp, hpp]

theorem putLoop_cons_notfound {m : Nat} {p : CnssPool} {t : List Nat}
    (rest : List CnssPool) (hmp : p.mp = true) (hpp : p.poolPtrs = some t)
    (hnf : m ∉ t) :
    putLoop m (p :: rest) =
      (p :: (putLoop m rest).1, (putLoop m rest).2) := by
  have hcc := (clearFirstMatch_eq_none_iff m t).mpr hnf
  obtain ⟨sz, mn, nm, mp, pp, cap⟩ := p
  simp only at hmp hpp
  subst hmp hpp
  simp [putLoop, wcnss_free_pool_table_slot, hcc]

theorem putLoop_cons_found {m : Nat} {p : CnssPool} {t t' : List Nat}
    {idx : Nat} (rest : List CnssPool) (hmp : p.mp = true)
    (hpp : p.poolPtrs = some t) (hfound : clearFirstMatch m t = some (t', idx)) :
    putLoop m (p :: rest) = ({ p with poolPtrs := some t' } :: rest, true) := by
  simp [putLoop, hmp, hpp, wcnss_free_pool_table_slot, hfound]

theorem putLoop_notfound_all {m : Nat} :
    ∀ (ps : List CnssPool),
      (∀ q ∈ ps, q.mp = true → ∀ t, q.poolPtrs = some t → m ∉ t) →
      putLoop m ps = (ps, false) := by
  intro ps
  induction ps with
  | nil => intro _; rfl
  | cons p rest ih =>
    intro h
    have ihr := ih (fun q hq => h q (by simp [hq]))
    cases hmp : p.mp with
    | false => rw [putLoop_cons_nomp rest hmp, ihr]
    | true =>
      cases hpp : p.poolPtrs with
      | none => exact putLoop_cons_nulltable rest hmp hpp
      | some t =>
        rw [putLoop_cons_notfound rest hmp hpp (h p (by simp) hmp t hpp), ihr]

theorem putLoop_skip {m : Nat} :
    ∀ (pre rest : List CnssPool),
      (∀ q ∈ pre, q.mp = true → ∃ t, q.poolPtrs = some t ∧ m ∉ t) →
      putLoop m (pre ++ rest) =
        (pre ++ (putLoop m rest).1, (putLoop m rest).2) := by
  intro pre
  induction pre with
  | nil => intro rest _; simp
  | cons p ps ih =>
    intro rest h
    have ihr := ih rest (fun q hq => h q (by simp [hq]))
    cases hmp : p.mp with
    | false =>
      rw [List.cons_append, putLoop_cons_nomp (ps ++ rest) hmp, ihr]
      rfl
    | true =>
      obtain ⟨t, hpp, hnf⟩ := h p (by simp) hmp
      rw [List.cons_append, putLoop_cons_notfound (ps ++ rest) hmp hpp hnf, ihr]
      rfl

/-! ### Helper lemmas on the leak-audit walk -/

theorem scanSlots_spec (nm : String) (t : List Nat) :
    ∀ (fuel idx : Nat), idx + fuel ≤ t.length →
      ∃ l, scanSlots nm t idx fuel = some l ∧
        ∀ nm' j, ((nm', j) ∈ l ↔
          nm' = nm ∧ idx ≤ j ∧ j < idx + fuel ∧
            ∃ v, t.get? j = some v ∧ v ≠ 0) := by
  intro fuel
  induction fuel with
  | zero =>
    intro idx _
    refine ⟨[], rfl, ?_⟩
    intro nm' j
    simp only [List.not_mem_nil, false_iff, not_and]
    intro _ _ h
    omega
  | succ fuel ih =>
    intro idx hlen
    have hidx : idx < t.length := by omega
    obtain ⟨v, hv⟩ : ∃ v, t.get? idx = some v :=
      ⟨t.get ⟨idx, hidx⟩, List.get?_eq_get hidx⟩
    have hv' : t[idx]? = some v := by
      rw [← List.get?_eq_getElem?]
      exact hv
    obtain ⟨l, hl, hmem⟩ := ih (idx + 1) (by omega)
    refine ⟨if v ≠ 0 then (nm, idx) :: l else l,
      by simp [scanSlots, hv, hv', hl], ?_⟩
    intro nm' j
    by_cases hvz : v = 0
    · simp only [hvz, ne_eq, not_true_eq_false, if_false]
      rw [hmem]
      constructor
      · rintro ⟨rfl, h1, h2, h3⟩
        exact ⟨rfl, by omega, by omega, h3⟩
      · rintro ⟨rfl, h1, h2, h3⟩
        refine ⟨rfl, ?_, by omega, h3⟩
        rcases Nat.eq_or_lt_of_le h1 with heq | hlt
        · exfalso
          obtain ⟨w, hw, hwz⟩ := h3
          rw [← heq, hv] at hw
          cases hw
          exact hwz hvz
        · omega
    · simp only [ne_eq, hvz, not_false_eq_true, if_true, List.mem_cons,
        Prod.mk.injEq]
      rw [hmem]
      constructor
      · rintro (⟨rfl, rfl⟩ | ⟨rfl, h1, h2, h3⟩)
        · exact ⟨rfl, by omega, by omega, ⟨v, hv, hvz⟩⟩
        · exact ⟨rfl, by omega, by omega, h3⟩
      · rintro ⟨rfl, h1, h2, h3⟩
        rcases Nat.eq_or_lt_of_le h1 with heq | hlt
        · exact Or.inl ⟨rfl, heq.symm⟩
        · exact Or.inr ⟨rfl, by omega, by omega, h3⟩

theorem checkPool_spec {q : CnssPool} {t : List Nat}
    (hpp : q.poolPtrs = some t) (hcap : q.tableCapacity = t.length) :
    ∃ l, checkPool q = some l ∧
      ∀ nm j, ((nm, j) ∈ l ↔ nm = q.name ∧ ∃ v, t.get? j = some v ∧ v ≠ 0) := by
  by_cases hc : q.tableCapacity = 0
  · have ht : t = [] := by
      have : t.length = 0 := by omega
      exact List.length_eq_zero.mp this
    refine ⟨[], by simp [checkPool, hc], ?_⟩
    intro nm j
    simp [ht]
  · obtain ⟨l, hl, hmem⟩ := scanSlots_spec q.name t q.tableCapacity 0 (by omega)
    refine ⟨l, by simp [checkPool, hc, hpp, hl], ?_⟩
    intro nm j
    rw [hmem]
    constructor
    · rintro ⟨rfl, -, -, h3⟩
      exact ⟨rfl, h3⟩
    · rintro ⟨rfl, v, hv, hvz⟩
      have : j < t.length := (List.get?_eq_some.mp hv).1
      exact ⟨rfl, by omega, by omega, ⟨v, hv, hvz⟩⟩

theorem checkReports_spec :
    ∀ (ps : List CnssPool),
      (∀ q ∈ ps, ∃ t, q.poolPtrs = some t ∧ q.tableCapacity = t.length) →
      ∃ l, checkReports ps = some l ∧
        ∀ nm j, ((nm, j) ∈ l ↔
          ∃ q ∈ ps, ∃ t, q.poolPtrs = some t ∧ nm = q.name ∧
            ∃ v, t.get? j = some v ∧ v ≠ 0) := by
  intro ps
  induction ps with
  | nil =>
    intro _
    refine ⟨[], rfl, ?_⟩
    simp
  | cons q rest ih =>
    intro h
    obtain ⟨t, hpp, hcap⟩ := h q (by simp)
    obtain ⟨lq, hlq, hmemq⟩ := checkPool_spec hpp hcap
    obtain ⟨lr, hlr, hmemr⟩ := ih (fun q' hq' => h q' (by simp [hq']))
    refine ⟨lq ++ lr, by simp [checkReports, hlq, hlr], ?_⟩
    intro nm j
    rw [List.mem_append, hmemq, hmemr]
    constructor
    · rintro (⟨rfl, hv⟩ | ⟨q', hq', hrest⟩)
      · exact ⟨q, by simp, t, hpp, rfl, hv⟩
      · exact ⟨q', by simp [hq'], hrest⟩
    · rintro ⟨q', hq', t', hpp', rfl, hv⟩
      rcases List.mem_cons.mp hq' with rfl | hq'
      · left
        rw [hpp] at hpp'
        cases hpp'
        exact ⟨rfl, hv⟩
      · exact Or.inr ⟨q', hq', t', hpp', rfl, hv⟩

theorem checkReports_none {p : CnssPool} (hnone : checkPool p = none) :
    ∀ (ps : List CnssPool), p ∈ ps → checkReports ps = none := by
  intro ps
  induction ps with
  | nil => intro h; simp at h
  | cons q rest ih =>
    intro hmem
    rcases List.mem_cons.mp hmem with rfl | hmem
    · simp [checkReports, hnone]
    · cases hcq : checkPool q with
      | none => simp [checkReports, hcq]
      | some lq => simp [checkReports, hcq, ih hmem]

/-! ### Claim theorems -/

theorem recordedIn_iff {m : Nat} {p : CnssPool} :
    recordedIn m p = true ↔ ∃ t, p.poolPtrs = some t ∧ m ∈ t := by
  cases hpp : p.poolPtrs with
  | none => simp [recordedIn, hpp]
  | some t => simp [recordedIn, hpp]

/-- C5: when a tier's tracking table has no empty slot and the
reallocation succeeds, `wcnss_find_pool_table_slot` reports success,
grows the capacity by exactly one (not doubling), appends the new
address as the single new slot (at index = old capacity), and preserves
every previously recorded slot and every address count (no loss, no
duplication). -/
theorem c5_growth_by_one (p : CnssPool) (t : List Nat) (m : Nat)
    (hpp : p.poolPtrs = some t) (hcap : p.tableCapacity = t.length)
    (hfull : 0 ∉ t) :
    (wcnss_find_pool_table_slot true p t m).2 = 0 ∧
    (wcnss_find_pool_table_slot true p t m).1.tableCapacity =
      p.tableCapacity + 1 ∧
    (wcnss_find_pool_table_slot true p t m).1.poolPtrs = some (t ++ [m]) ∧
    (t ++ [m]).get? p.tableCapacity = some m ∧
    (∀ i, i < p.tableCapacity → (t ++ [m]).get? i = t.get? i) ∧
    (t ++ [m]).count m = t.count m + 1 ∧
    (∀ x, x ≠ m → (t ++ [m]).count x = t.count x) := by
  have hfe : fillFirstEmpty m t = none := (fillFirstEmpty_eq_none_iff m t).mpr hfull
  refine ⟨by simp [wcnss_find_pool_table_slot, hfe],
    by simp [wcnss_find_pool_table_slot, hfe],
    by simp [wcnss_find_pool_table_slot, hfe], ?_, ?_, ?_, ?_⟩
  · rw [hcap]
    exact List.get?_concat_length t m
  · intro i hi
    rw [hcap] at hi
    exact List.get?_append hi
  · simp
  · intro x hx
    simp [List.count_append, hx]

/-- Witness for C5 at a concrete full table. -/
theorem c5_growth_by_one_witness :
    ((⟨8192, 1, "cnss-pool-8k", true, some [5], 1⟩ : CnssPool).poolPtrs =
        some [5] ∧
      (⟨8192, 1, "cnss-pool-8k", true, some [5], 1⟩ : CnssPool).tableCapacity =
        [5].length ∧ 0 ∉ [5]) ∧
    (wcnss_find_pool_table_slot true
        ⟨8192, 1, "cnss-pool-8k", true, some [5], 1⟩ [5] 9).2 = 0 ∧
    (wcnss_find_pool_table_slot true
        ⟨8192, 1, "cnss-pool-8k", true, some [5], 1⟩ [5] 9).1.tableCapacity = 2 :=
  ⟨⟨rfl, by decide, by decide⟩,
    (c5_growth_by_one ⟨8192, 1, "cnss-pool-8k", true, some [5], 1⟩ [5] 9 rfl
      (by decide) (by decide)).1,
    (c5_growth_by_one ⟨8192, 1, "cnss-pool-8k", true, some [5], 1⟩ [5] 9 rfl
      (by decide) (by decide)).2.1⟩

/-- C8: for a request size strictly below every tier's block size (in
particular below the smallest tier's, which is the threshold
`cnss_pools[0].size`), `wcnss_prealloc_get` engages no tier: no
`mempool_alloc` is attempted, no tracking table changes, and NULL is
returned. -/
theorem c8_below_threshold_no_engagement (alloc : Nat → Option Nat)
    (krOk : Bool) (size : Nat) (p0 : CnssPool) (ps : List CnssPool)
    (hsz : ∀ q ∈ p0 :: ps, size < q.size) :
    wcnss_prealloc_get alloc krOk size (p0 :: ps) =
      { pools := p0 :: ps, mem := 0, attempts := [], freedTo := none } := by
  have h0 : size < p0.size := hsz p0 (by simp)
  have hth : ¬ cnss_pool_alloc_threshold (p0 :: ps) ≤ size := by
    simp only [cnss_pool_alloc_threshold, List.headD_cons]
    omega
  simp [wcnss_prealloc_get, hth]

/-- Witness for C8 on the two-tier pool set at size 100. -/
theorem c8_below_threshold_no_engagement_witness :
    (∀ q ∈ [(⟨8192, 2, "cnss-pool-8k", true, some [0, 0], 2⟩ : CnssPool),
        ⟨16384, 2, "cnss-pool-16k", true, some [0, 0], 2⟩], 100 < q.size) ∧
    wcnss_prealloc_get (fun _ => some 5) true 100
        [⟨8192, 2, "cnss-pool-8k", true, some [0, 0], 2⟩,
         ⟨16384, 2, "cnss-pool-16k", true, some [0, 0], 2⟩] =
      { pools := [⟨8192, 2, "cnss-pool-8k", true, some [0, 0], 2⟩,
          ⟨16384, 2, "cnss-pool-16k", true, some [0, 0], 2⟩],
        mem := 0, attempts := [], freedTo := none } :=
  ⟨by decide, c8_below_threshold_no_engagement (fun _ => some 5) true 100
    ⟨8192, 2, "cnss-pool-8k", true, some [0, 0], 2⟩
    [⟨16384, 2, "cnss-pool-16k", true, some [0, 0], 2⟩] (by decide)⟩

/-- C9: `wcnss_check_pool_lists` performs no store (the pool set passes
through unchanged) and, whenever every tier's tracking table is live
with its capacity equal to its length, it reports exactly the non-empty
slots: `(name, index)` is reported iff some tier of that name holds a
non-NULL address at that slot index. -/
theorem c9_leak_audit_reports_and_frame (pools : List CnssPool)
    (hwf : ∀ q ∈ pools, ∃ t, q.poolPtrs = some t ∧
      q.tableCapacity = t.length) :
    (wcnss_check_pool_lists pools).1 = pools ∧
    ∃ l, (wcnss_check_pool_lists pools).2 = some l ∧
      ∀ nm j, ((nm, j) ∈ l ↔
        ∃ q ∈ pools, ∃ t, q.poolPtrs = some t ∧ nm = q.name ∧
          ∃ v, t.get? j = some v ∧ v ≠ 0) :=
  ⟨rfl, checkReports_spec pools hwf⟩

/-- Witness for C9 on a pool set with one leaked slot. -/
theorem c9_leak_audit_reports_and_frame_witness :
    (∀ q ∈ [(⟨8192, 2, "cnss-pool-8k", true, some [7, 0], 2⟩ : CnssPool),
        ⟨16384, 2, "cnss-pool-16k", true, some [0, 0], 2⟩],
      ∃ t, q.poolPtrs = some t ∧ q.tableCapacity = t.length) ∧
    (wcnss_check_pool_lists
        [⟨8192, 2, "cnss-pool-8k", true, some [7, 0], 2⟩,
         ⟨16384, 2, "cnss-pool-16k", true, some [0, 0], 2⟩]).1 =
      [⟨8192, 2, "cnss-pool-8k", true, some [7, 0], 2⟩,
       ⟨16384, 2, "cnss-pool-16k", true, some [0, 0], 2⟩] :=
  ⟨by decide,
    (c9_leak_audit_reports_and_frame
      [⟨8192, 2, "cnss-pool-8k", true, some [7, 0], 2⟩,
       ⟨16384, 2, "cnss-pool-16k", true, some [0, 0], 2⟩]
      (by decide)).1⟩

/-- C10: the leak audit is safe when every tier's table is live (the
reports are produced), but `cnss_pool_init` with a failed tracking-table
`kmalloc` leaves a tier with `table_capacity = min > 0` and a NULL
`pool_ptrs`, and on any pool set containing such a tier the audit's
unguarded `pool[ptr_idx]` read dereferences NULL (modelled: the walk
faults, `none`). -/
theorem c10_null_table_reachable (pools : List CnssPool) (cfg : PoolCfg)
    (pre rest : List CnssPool)
    (hwf : ∀ q ∈ pools, ∃ t, q.poolPtrs = some t ∧
      q.tableCapacity = t.length)
    (hmin : 0 < cfg.min) :
    (wcnss_check_pool_lists pools).2.isSome = true ∧
    (cnss_pool_init_one true true none cfg).poolPtrs = none ∧
    (cnss_pool_init_one true true none cfg).tableCapacity = cfg.min ∧
    checkPool (cnss_pool_init_one true true none cfg) = none ∧
    (wcnss_check_pool_lists
        (pre ++ cnss_pool_init_one true true none cfg :: rest)).2 = none ∧
    cnss_pool_init (fun _ => true) (fun _ => true) (fun _ => none) [cfg] =
      [cnss_pool_init_one true true none cfg] := by
  have hcp : checkPool (cnss_pool_init_one true true none cfg) = none := by
    simp only [cnss_pool_init_one, if_true, checkPool]
    have : cfg.min ≠ 0 := by omega
    simp [this]
  refine ⟨?_, rfl, rfl, hcp, ?_, rfl⟩
  · obtain ⟨l, hl, -⟩ := checkReports_spec pools hwf
    simp [wcnss_check_pool_lists, hl]
  · exact checkReports_none hcp _ (by simp)

/-- Witness for C10 with the default 8k config row. -/
theorem c10_null_table_reachable_witness :
    ((∀ q ∈ [(⟨8192, 2, "cnss-pool-8k", true, some [0, 0], 2⟩ : CnssPool)],
        ∃ t, q.poolPtrs = some t ∧ q.tableCapacity = t.length) ∧
      0 < (⟨8192, 16, "cnss-pool-8k"⟩ : PoolCfg).min) ∧
    (wcnss_check_pool_lists
        ([] ++ cnss_pool_init_one true true none ⟨8192, 16, "cnss-pool-8k"⟩ ::
          [])).2 = none :=
  ⟨⟨by decide, by decide⟩,
    (c10_null_table_reachable
      [⟨8192, 2, "cnss-pool-8k", true, some [0, 0], 2⟩]
      ⟨8192, 16, "cnss-pool-8k"⟩ [] [] (by decide) (by decide)).2.2.2.2.1⟩

/-- C2: when the first engaged tier's `mempool_alloc` succeeds with a
block `m` but `wcnss_find_pool_table_slot` fails (table full and
`krealloc` fails), `wcnss_prealloc_get` frees `m` back to that same
tier's mempool (`freedTo` records the `mempool_free(mem,
cnss_pools[i].mp)` call) and returns NULL — no block is handed out
unrecorded. -/
theorem c2_rollback_on_insert_failure (alloc : Nat → Option Nat)
    (size : Nat) (pre rest : List CnssPool) (p : CnssPool) (t : List Nat)
    (m : Nat)
    (hpre : ∀ q ∈ pre, tierMatches size q = false)
    (hm : tierMatches size p = true)
    (hpp : p.poolPtrs = some t) (hfull : 0 ∉ t)
    (hal : alloc pre.length = some m)
    (hth : cnss_pool_alloc_threshold (pre ++ p :: rest) ≤ size) :
    wcnss_prealloc_get alloc false size (pre ++ p :: rest) =
      { pools := pre ++ { p with poolPtrs := none } :: rest, mem := 0,
        attempts := [pre.length], freedTo := some (pre.length, m) } := by
  have hfe : fillFirstEmpty m t = none := (fillFirstEmpty_eq_none_iff m t).mpr hfull
  have hskip := getLoop_skip alloc false size pre (p :: rest) 0 hpre
  simp only [Nat.zero_add] at hskip
  have hloop : getLoop alloc false size 0 (pre ++ p :: rest) =
      (pre ++ { p with poolPtrs := none } :: rest, m, -1,
        [pre.length], some pre.length) := by
    rw [hskip, getLoop_cons_alloc alloc false pre.length rest hm hpp hal]
    simp [wcnss_find_pool_table_slot, hfe]
  simp [wcnss_prealloc_get, hth, hloop]

/-- Witness for C2: one full 8k tier, allocation succeeds, growth fails. -/
theorem c2_rollback_on_insert_failure_witness :
    ((∀ q ∈ ([] : List CnssPool), tierMatches 8192 q = false) ∧
      tierMatches 8192 (⟨8192, 1, "cnss-pool-8k", true, some [5], 1⟩ : CnssPool) = true ∧
      (⟨8192, 1, "cnss-pool-8k", true, some [5], 1⟩ : CnssPool).poolPtrs = some [5] ∧
      0 ∉ [5] ∧
      cnss_pool_alloc_threshold
        ([] ++ (⟨8192, 1, "cnss-pool-8k", true, some [5], 1⟩ : CnssPool) :: []) ≤ 8192) ∧
    wcnss_prealloc_get (fun _ => some 9) false 8192
        ([] ++ (⟨8192, 1, "cnss-pool-8k", true, some [5], 1⟩ : CnssPool) :: []) =
      { pools := [] ++
          ({ (⟨8192, 1, "cnss-pool-8k", true, some [5], 1⟩ : CnssPool) with
            poolPtrs := none } : CnssPool) :: [],
        mem := 0, attempts := [List.length ([] : List CnssPool)],
        freedTo := some (List.length ([] : List CnssPool), 9) } :=
  ⟨⟨by decide, by decide, rfl, by decide, by decide⟩,
    c2_rollback_on_insert_failure (fun _ => some 9) 8192 [] []
      ⟨8192, 1, "cnss-pool-8k", true, some [5], 1⟩ [5] 9
      (by decide) (by decide) rfl (by decide) rfl (by decide)⟩

/-- C1 counterexample: two tiers (8k then 16k), request 8192, the 8k
tier's allocator fails; contrary to the claim, the call does not return
NULL — it overflows to the 16k tier (its allocator is attempted, index 1
appears in `attempts`) and returns that tier's block. -/
theorem c1_counterexample :
    (wcnss_prealloc_get (fun i => if i = 1 then some 42 else none) true 8192
        [⟨8192, 2, "cnss-pool-8k", true, some [0, 0], 2⟩,
         ⟨16384, 2, "cnss-pool-16k", true, some [0, 0], 2⟩]).mem = 42 ∧
    (wcnss_prealloc_get (fun i => if i = 1 then some 42 else none) true 8192
        [⟨8192, 2, "cnss-pool-8k", true, some [0, 0], 2⟩,
         ⟨16384, 2, "cnss-pool-16k", true, some [0, 0], 2⟩]).attempts =
      [0, 1] := by
  decide

/-- C1 (amended): when the first tier with `blockSize ≥ size` and a
present backing allocator fails to produce a block, `wcnss_prealloc_get`
does not stop — the loop moves on and the next such tier's backing
allocator is attempted as well. -/
theorem c1_amended_overflow (alloc : Nat → Option Nat) (krOk : Bool)
    (size : Nat) (pre mid rest : List CnssPool) (p q : CnssPool)
    (t tq : List Nat)
    (hpre : ∀ x ∈ pre, tierMatches size x = false)
    (hmid : ∀ x ∈ mid, tierMatches size x = false)
    (hp : tierMatches size p = true) (hpt : p.poolPtrs = some t)
    (hal : alloc pre.length = none)
    (hq : tierMatches size q = true) (hqt : q.poolPtrs = some tq)
    (hth : cnss_pool_alloc_threshold (pre ++ p :: (mid ++ q :: rest)) ≤ size) :
    (pre.length + 1 + mid.length) ∈
      (wcnss_prealloc_get alloc krOk size
        (pre ++ p :: (mid ++ q :: rest))).attempts := by
  have hskip1 := getLoop_skip alloc krOk size pre (p :: (mid ++ q :: rest)) 0 hpre
  simp only [Nat.zero_add] at hskip1
  have hskip2 := getLoop_skip alloc krOk size mid (q :: rest) (pre.length + 1) hmid
  have key : (pre.length + 1 + mid.length) ∈
      (getLoop alloc krOk size 0 (pre ++ p :: (mid ++ q :: rest))).2.2.2.1 := by
    rw [hskip1,
      getLoop_cons_allocfail alloc krOk pre.length (mid ++ q :: rest) hp hpt hal]
    show pre.length + 1 + mid.length ∈
      pre.length ::
        (getLoop alloc krOk size (pre.length + 1) (mid ++ q :: rest)).2.2.2.1
    rw [hskip2]
    cases halq : alloc (pre.length + 1 + mid.length) with
    | none =>
      rw [getLoop_cons_allocfail alloc krOk (pre.length + 1 + mid.length) rest
        hq hqt halq]
      simp
    | some mq =>
      rw [getLoop_cons_alloc alloc krOk (pre.length + 1 + mid.length) rest
        hq hqt halq]
      simp
  rw [wcnss_prealloc_get, if_pos hth]
  by_cases hret : (getLoop alloc krOk size 0 (pre ++ p :: (mid ++ q :: rest))).2.2.1 < 0
  · simp only [hret, if_true]
    exact key
  · simp only [hret, if_false]
    exact key

/-- Witness for C1 (amended) at the counterexample's input. -/
theorem c1_amended_overflow_witness :
    (tierMatches 8192 (⟨8192, 2, "cnss-pool-8k", true, some [0, 0], 2⟩ : CnssPool) = true ∧
      (fun i => if i = 1 then some 42 else none : Nat → Option Nat)
        (List.length ([] : List CnssPool)) = none ∧
      tierMatches 8192 (⟨16384, 2, "cnss-pool-16k", true, some [0, 0], 2⟩ : CnssPool) = true) ∧
    (List.length ([] : List CnssPool) + 1 + List.length ([] : List CnssPool)) ∈
      (wcnss_prealloc_get (fun i => if i = 1 then some 42 else none) true 8192
        ([] ++ (⟨8192, 2, "cnss-pool-8k", true, some [0, 0], 2⟩ : CnssPool) ::
          ([] ++ (⟨16384, 2, "cnss-pool-16k", true, some [0, 0], 2⟩ : CnssPool) ::
            []))).attempts :=
  ⟨⟨by decide, by decide, by decide⟩,
    c1_amended_overflow (fun i => if i = 1 then some 42 else none) true 8192
      [] [] [] ⟨8192, 2, "cnss-pool-8k", true, some [0, 0], 2⟩
      ⟨16384, 2, "cnss-pool-16k", true, some [0, 0], 2⟩ [0, 0] [0, 0]
      (by decide) (by decide) (by decide) rfl (by decide) (by decide) rfl
      (by decide)⟩

/-- C6: a failed table growth (`krealloc` returns NULL) makes
`wcnss_find_pool_table_slot` fail and overwrite the tier's table pointer
with NULL, discarding every recorded address; thereafter any
`wcnss_prealloc_get` whose size selects that tier hits the NULL-table
`break` and returns NULL without attempting any tier (it does not skip
to a larger one), and the table-scan `wcnss_prealloc_put` loop breaks at
that tier, returning failure and leaving the pool set unchanged for
every address — including addresses recorded in later tiers. -/
theorem c6_growth_failure_degrades (p : CnssPool) (t : List Nat)
    (m m' : Nat) (pre rest : List CnssPool) (alloc : Nat → Option Nat)
    (krOk : Bool) (size : Nat)
    (hfull : 0 ∉ t) (hmp : p.mp = true) (hpp : p.poolPtrs = some t)
    (hpre : ∀ q ∈ pre, tierMatches size q = false)
    (hpre' : ∀ q ∈ pre, q.mp = true → ∃ tq, q.poolPtrs = some tq ∧ m' ∉ tq)
    (hm' : m' ≠ 0) (hsz : size ≤ p.size)
    (hth : cnss_pool_alloc_threshold
      (pre ++ { p with poolPtrs := none } :: rest) ≤ size) :
    (wcnss_find_pool_table_slot false p t m).2 < 0 ∧
    (wcnss_find_pool_table_slot false p t m).1 = { p with poolPtrs := none } ∧
    (∀ a, recordedIn a (wcnss_find_pool_table_slot false p t m).1 = false) ∧
    wcnss_prealloc_get alloc krOk size
        (pre ++ { p with poolPtrs := none } :: rest) =
      { pools := pre ++ { p with poolPtrs := none } :: rest, mem := 0,
        attempts := [], freedTo := none } ∧
    wcnss_prealloc_put m' (pre ++ { p with poolPtrs := none } :: rest) =
      (pre ++ { p with poolPtrs := none } :: rest, false) := by
  have hfe : fillFirstEmpty m t = none := (fillFirstEmpty_eq_none_iff m t).mpr hfull
  have hmatch : tierMatches size { p with poolPtrs := none } = true := by
    simp [tierMatches, hsz, hmp]
  refine ⟨by simp [wcnss_find_pool_table_slot, hfe],
    by simp [wcnss_find_pool_table_slot, hfe],
    by intro a; simp [wcnss_find_pool_table_slot, hfe, recordedIn], ?_, ?_⟩
  · have hskip := getLoop_skip alloc krOk size pre
      ({ p with poolPtrs := none } :: rest) 0 hpre
    simp only [Nat.zero_add] at hskip
    have hloop : getLoop alloc krOk size 0
        (pre ++ { p with poolPtrs := none } :: rest) =
        (pre ++ { p with poolPtrs := none } :: rest, 0, 0, [],
          some pre.length) := by
      rw [hskip, getLoop_cons_nulltable alloc krOk pre.length rest hmatch rfl]
    simp [wcnss_prealloc_get, hth, hloop]
  · rw [wcnss_prealloc_put, if_neg hm',
      putLoop_skip pre ({ p with poolPtrs := none } :: rest) hpre',
      putLoop_cons_nulltable rest
        (show ({ p with poolPtrs := none } : CnssPool).mp = true from hmp) rfl]

/-- Witness for C6 at a concrete damaged pool set. -/
theorem c6_growth_failure_degrades_witness :
    (0 ∉ [5] ∧
      (⟨8192, 1, "cnss-pool-8k", true, some [5], 1⟩ : CnssPool).mp = true ∧
      (7 : Nat) ≠ 0 ∧
      (8192 : Nat) ≤ (⟨8192, 1, "cnss-pool-8k", true, some [5], 1⟩ : CnssPool).size) ∧
    wcnss_prealloc_put 7
        ([] ++ ({ (⟨8192, 1, "cnss-pool-8k", true, some [5], 1⟩ : CnssPool) with
          poolPtrs := none } : CnssPool) ::
          [⟨16384, 1, "cnss-pool-16k", true, some [7], 1⟩]) =
      ([] ++ ({ (⟨8192, 1, "cnss-pool-8k", true, some [5], 1⟩ : CnssPool) with
          poolPtrs := none } : CnssPool) ::
          [⟨16384, 1, "cnss-pool-16k", true, some [7], 1⟩], false) :=
  ⟨⟨by decide, by decide, by decide, by decide⟩,
    (c6_growth_failure_degrades ⟨8192, 1, "cnss-pool-8k", true, some [5], 1⟩
      [5] 9 7 [] [⟨16384, 1, "cnss-pool-16k", true, some [7], 1⟩]
      (fun _ => none) true 8192 (by decide) (by decide) rfl (by decide)
      (by decide) (by decide) (by decide) (by decide)).2.2.2.2⟩

/-- C4: for an address recorded exactly once, in one tier's table (and
nowhere else), the first `wcnss_prealloc_put` succeeds and clears that
record, and an immediately following second `wcnss_prealloc_put` of the
same address fails and leaves every tier's table unchanged. -/
theorem c4_release_once_then_fail (m : Nat) (pre rest : List CnssPool)
    (p : CnssPool) (t : List Nat)
    (hm : m ≠ 0)
    (hpre : ∀ q ∈ pre, q.mp = true → ∃ tq, q.poolPtrs = some tq ∧ m ∉ tq)
    (hmp : p.mp = true) (hpp : p.poolPtrs = some t) (hcount : t.count m = 1)
    (hrest : ∀ q ∈ rest, q.mp = true → ∀ tq, q.poolPtrs = some tq → m ∉ tq) :
    ∃ t', wcnss_prealloc_put m (pre ++ p :: rest) =
        (pre ++ { p with poolPtrs := some t' } :: rest, true) ∧
      m ∉ t' ∧
      wcnss_prealloc_put m (pre ++ { p with poolPtrs := some t' } :: rest) =
        (pre ++ { p with poolPtrs := some t' } :: rest, false) := by
  have hmem : m ∈ t := by
    by_contra hnot
    rw [List.count_eq_zero_of_not_mem hnot] at hcount
    exact absurd hcount (by omega)
  obtain ⟨t', idx, hclear⟩ := clearFirstMatch_exists hmem
  have hzero : t'.count m = 0 := by
    have := clearFirstMatch_count hm hclear
    omega
  have hnotin : m ∉ t' := by
    intro hin
    rw [List.count_eq_zero] at hzero
    exact hzero hin
  refine ⟨t', ?_, hnotin, ?_⟩
  · rw [wcnss_prealloc_put, if_neg hm,
      putLoop_skip pre (p :: rest) hpre,
      putLoop_cons_found rest hmp hpp hclear]
  · rw [wcnss_prealloc_put, if_neg hm]
    apply putLoop_notfound_all
    intro q hq hqmp tq hqt
    rcases List.mem_append.mp hq with hq | hq
    · obtain ⟨tq', hq1, hq2⟩ := hpre q hq hqmp
      rw [hqt] at hq1
      cases hq1
      exact hq2
    · rcases List.mem_cons.mp hq with rfl | hq
      · simp only at hqt
        cases hqt
        exact hnotin
    -- the updated tier carries table t'
      · exact hrest q hq hqmp tq hqt

/-- Witness for C4 on a two-tier pool set with the address in tier 1. -/
theorem c4_release_once_then_fail_witness :
    ((777 : Nat) ≠ 0 ∧
      (⟨16384, 2, "cnss-pool-16k", true, some [777, 0], 2⟩ : CnssPool).mp = true ∧
      [777, 0].count 777 = 1) ∧
    ∃ t', wcnss_prealloc_put 777
        ([(⟨8192, 2, "cnss-pool-8k", true, some [0, 0], 2⟩ : CnssPool)] ++
          (⟨16384, 2, "cnss-pool-16k", true, some [777, 0], 2⟩ : CnssPool) :: []) =
        ([⟨8192, 2, "cnss-pool-8k", true, some [0, 0], 2⟩] ++
          ({ (⟨16384, 2, "cnss-pool-16k", true, some [777, 0], 2⟩ : CnssPool) with
            poolPtrs := some t' } : CnssPool) :: [], true) ∧
      777 ∉ t' ∧
      wcnss_prealloc_put 777
        ([⟨8192, 2, "cnss-pool-8k", true, some [0, 0], 2⟩] ++
          ({ (⟨16384, 2, "cnss-pool-16k", true, some [777, 0], 2⟩ : CnssPool) with
            poolPtrs := some t' } : CnssPool) :: []) =
        ([⟨8192, 2, "cnss-pool-8k", true, some [0, 0], 2⟩] ++
          ({ (⟨16384, 2, "cnss-pool-16k", true, some [777, 0], 2⟩ : CnssPool) with
            poolPtrs := some t' } : CnssPool) :: [], false) :=
  ⟨⟨by decide, by decide, by decide⟩,
    c4_release_once_then_fail 777
      [⟨8192, 2, "cnss-pool-8k", true, some [0, 0], 2⟩] []
      ⟨16384, 2, "cnss-pool-16k", true, some [777, 0], 2⟩ [777, 0]
      (by decide) (by decide) (by decide) rfl (by decide) (by decide)⟩

/-- C3: whenever `wcnss_prealloc_get` returns a non-NULL address (under
a backing allocator that only produces addresses recorded nowhere), that
address was recorded in no tier's table before the call, is recorded in
exactly one tier's table after the call, and the recording tier's block
size is at least the requested size. -/
theorem c3_acquire_records_unique (alloc : Nat → Option Nat) (krOk : Bool)
    (size : Nat) (pools : List CnssPool)
    (hfresh : ∀ i a, alloc i = some a → ∀ q ∈ pools, recordedIn a q = false)
    (hmem : (wcnss_prealloc_get alloc krOk size pools).mem ≠ 0) :
    (∀ q ∈ pools,
      recordedIn (wcnss_prealloc_get alloc krOk size pools).mem q = false) ∧
    ((wcnss_prealloc_get alloc krOk size pools).pools.countP
      (fun q => recordedIn (wcnss_prealloc_get alloc krOk size pools).mem q)
        = 1) ∧
    (∀ q ∈ (wcnss_prealloc_get alloc krOk size pools).pools,
      recordedIn (wcnss_prealloc_get alloc krOk size pools).mem q = true →
        size ≤ q.size) := by
  by_cases hth : cnss_pool_alloc_threshold pools ≤ size
  · by_cases hret : (getLoop alloc krOk size 0 pools).2.2.1 < 0
    · exfalso
      apply hmem
      simp [wcnss_prealloc_get, hth, hret]
    · have hres : wcnss_prealloc_get alloc krOk size pools =
          { pools := (getLoop alloc krOk size 0 pools).1,
            mem := (getLoop alloc krOk size 0 pools).2.1,
            attempts := (getLoop alloc krOk size 0 pools).2.2.2.1,
            freedTo := none } := by
        simp [wcnss_prealloc_get, hth, hret]
      rw [hres] at hmem ⊢
      dsimp only at hmem ⊢
      obtain ⟨pre, p, rest, p', t, t', j, hdec, himg, h1, h2, h3, h4, h5, h6, h7⟩ :=
        getLoop_success_spec alloc krOk size pools 0 hmem (by omega)
      have hfm : ∀ q ∈ pools,
          recordedIn (getLoop alloc krOk size 0 pools).2.1 q = false :=
        hfresh j _ h3
      have hp' : recordedIn (getLoop alloc krOk size 0 pools).2.1 p' = true :=
        recordedIn_iff.mpr ⟨t', h5, h6⟩
      refine ⟨hfm, ?_, ?_⟩
      · rw [himg, List.countP_append, List.countP_cons]
        have hpre0 : (pre.countP fun q =>
            recordedIn (getLoop alloc krOk size 0 pools).2.1 q) = 0 := by
          rw [List.countP_eq_zero]
          intro q hq
          simp [hfm q (by rw [hdec]; exact List.mem_append_left _ hq)]
        have hrest0 : (rest.countP fun q =>
            recordedIn (getLoop alloc krOk size 0 pools).2.1 q) = 0 := by
          rw [List.countP_eq_zero]
          intro q hq
          have : q ∈ pools := by
            rw [hdec]
            exact List.mem_append_right _ (List.mem_cons_of_mem p hq)
          simp [hfm q this]
        rw [hpre0, hrest0, hp']
        simp
      · intro q hq hqrec
        rw [himg] at hq
        rcases List.mem_append.mp hq with hq | hq
        · rw [hfm q (by rw [hdec]; exact List.mem_append_left _ hq)] at hqrec
          cases hqrec
        · rcases List.mem_cons.mp hq with rfl | hq
          · rw [h7]
            exact h1
          · have : q ∈ pools := by
              rw [hdec]
              exact List.mem_append_right _ (List.mem_cons_of_mem p hq)
            rw [hfm q this] at hqrec
            cases hqrec
  · exfalso
    apply hmem
    simp [wcnss_prealloc_get, hth]

/-- Witness for C3: acquire 8192 from an empty 8k tier records 9 there. -/
theorem c3_acquire_records_unique_witness :
    ((∀ i a, (fun _ => some 9 : Nat → Option Nat) i = some a →
        ∀ q ∈ [(⟨8192, 2, "cnss-pool-8k", true, some [0, 0], 2⟩ : CnssPool)],
          recordedIn a q = false) ∧
      (wcnss_prealloc_get (fun _ => some 9) true 8192
        [⟨8192, 2, "cnss-pool-8k", true, some [0, 0], 2⟩]).mem ≠ 0) ∧
    ((wcnss_prealloc_get (fun _ => some 9) true 8192
        [⟨8192, 2, "cnss-pool-8k", true, some [0, 0], 2⟩]).pools.countP
      (fun q => recordedIn
        (wcnss_prealloc_get (fun _ => some 9) true 8192
          [⟨8192, 2, "cnss-pool-8k", true, some [0, 0], 2⟩]).mem q) = 1) :=
  ⟨⟨by
      intro i a ha q hq
      have h9 : a = 9 := by simpa using ha.symm
      subst h9
      simp only [List.mem_singleton] at hq
      subst hq
      decide, by decide⟩,
    (c3_acquire_records_unique (fun _ => some 9) true 8192
      [⟨8192, 2, "cnss-pool-8k", true, some [0, 0], 2⟩]
      (by
        intro i a ha q hq
        have h9 : a = 9 := by simpa using ha.symm
        subst h9
        simp only [List.mem_singleton] at hq
        subst hq
        decide) (by decide)).2.1⟩

/-- The spec's scenario `profileA` pool set: tiers 8k(min 2) and
16k(min 2), freshly initialized (all table slots empty). -/
def profileA : List CnssPool :=
  [⟨8192, 2, "cnss-pool-8k", true, some [0, 0], 2⟩,
   ⟨16384, 2, "cnss-pool-16k", true, some [0, 0], 2⟩]

/-- C7: the `wcnss_prealloc_get` loop walks the (ascending-size) tier
array in order and the first tier with `blockSize ≥ size` and a live
mempool is the first one attempted; concretely on `profileA`,
`acquire(10000)` skips the 8k tier, returns the 16k tier's block 777 and
records it in the 16k tier's table, releasing 777 succeeds and restores
the table, and a second release of 777 fails. -/
theorem c7_first_matching_tier_and_scenario (alloc : Nat → Option Nat)
    (krOk : Bool) (size : Nat) (pre rest : List CnssPool) (p : CnssPool)
    (t : List Nat)
    (hasc : (pre ++ p :: rest).Pairwise (fun a b => a.size ≤ b.size))
    (hpre : ∀ x ∈ pre, tierMatches size x = false)
    (hp : tierMatches size p = true) (hpt : p.poolPtrs = some t)
    (hth : cnss_pool_alloc_threshold (pre ++ p :: rest) ≤ size) :
    ((wcnss_prealloc_get alloc krOk size (pre ++ p :: rest)).attempts.head? =
      some pre.length) ∧
    (wcnss_prealloc_get (fun _ => some 777) true 10000 profileA).mem = 777 ∧
    (wcnss_prealloc_get (fun _ => some 777) true 10000 profileA).attempts = [1] ∧
    (wcnss_prealloc_get (fun _ => some 777) true 10000 profileA).pools =
      [⟨8192, 2, "cnss-pool-8k", true, some [0, 0], 2⟩,
       ⟨16384, 2, "cnss-pool-16k", true, some [777, 0], 2⟩] ∧
    wcnss_prealloc_put 777
      [⟨8192, 2, "cnss-pool-8k", true, some [0, 0], 2⟩,
       ⟨16384, 2, "cnss-pool-16k", true, some [777, 0], 2⟩] =
      (profileA, true) ∧
    wcnss_prealloc_put 777 profileA = (profileA, false) := by
  refine ⟨?_, by decide, by decide, by decide, by decide, by decide⟩
  have hskip := getLoop_skip alloc krOk size pre (p :: rest) 0 hpre
  simp only [Nat.zero_add] at hskip
  have key : (getLoop alloc krOk size 0 (pre ++ p :: rest)).2.2.2.1.head? =
      some pre.length := by
    rw [hskip]
    cases hal : alloc pre.length with
    | none =>
      rw [getLoop_cons_allocfail alloc krOk pre.length rest hp hpt hal]
      rfl
    | some m =>
      rw [getLoop_cons_alloc alloc krOk pre.length rest hp hpt hal]
      rfl
  rw [wcnss_prealloc_get, if_pos hth]
  by_cases hret : (getLoop alloc krOk size 0 (pre ++ p :: rest)).2.2.1 < 0
  · simp only [hret, if_true]
    exact key
  · simp only [hret, if_false]
    exact key

/-- Witness for C7's general part on `profileA` at size 10000. -/
theorem c7_first_matching_tier_and_scenario_witness :
    ((∀ x ∈ [(⟨8192, 2, "cnss-pool-8k", true, some [0, 0], 2⟩ : CnssPool)],
        tierMatches 10000 x = false) ∧
      tierMatches 10000
        (⟨16384, 2, "cnss-pool-16k", true, some [0, 0], 2⟩ : CnssPool) = true) ∧
    (wcnss_prealloc_get (fun _ => some 777) true 10000
      ([⟨8192, 2, "cnss-pool-8k", true, some [0, 0], 2⟩] ++
        (⟨16384, 2, "cnss-pool-16k", true, some [0, 0], 2⟩ : CnssPool) ::
          [])).attempts.head? =
      some (List.length [(⟨8192, 2, "cnss-pool-8k", true, some [0, 0], 2⟩ : CnssPool)]) :=
  ⟨⟨by decide, by decide⟩,
    (c7_first_matching_tier_and_scenario (fun _ => some 777) true 10000
      [⟨8192, 2, "cnss-pool-8k", true, some [0, 0], 2⟩] []
      ⟨16384, 2, "cnss-pool-16k", true, some [0, 0], 2⟩ [0, 0]
      (by decide) (by decide) (by decide) rfl (by decide)).1⟩

end CnssPrealloc
